import Mathlib

/- Shallow embedding of src/battery_model.py (class BatteryModel).
   Python floats are modelled as real numbers.  Python dict-shaped inputs
   read with dict.get(key, default) are modelled as structures of Option
   fields read with Option.getD.  The mutable object is modelled by
   explicit state passing: each mutating method returns the updated
   BatteryModel value (and, for step, the returned snapshot). -/

open scoped Classical

noncomputable section

/- Usage dict: keys brightness, cpu_load, network, gps, background, each
   possibly absent (battery_model.py lines 75-79 read them with defaults
   0.5, 0.5, True, True, True). -/
structure Usage where
  brightness : Option ℝ := none
  cpu_load : Option ℝ := none
  network : Option Bool := none
  gps : Option Bool := none
  background : Option Bool := none

/- Per-component power breakdown stored in _last_p_components
   (battery_model.py lines 89-95). -/
structure PowerBreakdown where
  P_screen : ℝ
  P_CPU : ℝ
  P_network : ℝ
  P_GPS : ℝ
  P_background : ℝ

/- The model object: parameter fields and mutable state fields (SOC, T,
   T_env), exactly the attributes assigned in BatteryModel.__init__
   (battery_model.py lines 46-64; the verbose flag carries no semantics
   and is omitted). -/
structure BatteryModel where
  Q_Ah : ℝ
  V_nom : ℝ
  T_ref : ℝ
  k_temp : ℝ
  P_base : ℝ
  P_screen_base : ℝ
  P_screen_exp : ℝ
  P_cpu_idle : ℝ
  P_cpu_peak : ℝ
  P_network : ℝ
  P_gps : ℝ
  P_background : ℝ
  P_cpu_exp : ℝ
  C_th : ℝ
  h : ℝ
  T_env : ℝ
  T : ℝ
  SOC : ℝ

/- BatteryModel.__init__ (lines 26-64): stores every parameter as given,
   sets T_env and T to T_env_init and SOC to 1.  The constructor contains
   no validation of any kind. -/
def BatteryModel.init (Q_Ah V_nom T_ref k_temp P_base P_screen_base P_screen_exp
    P_cpu_idle P_cpu_peak P_network P_gps P_background P_cpu_exp C_th h
    T_env_init : ℝ) : BatteryModel :=
  { Q_Ah := Q_Ah, V_nom := V_nom, T_ref := T_ref, k_temp := k_temp,
    P_base := P_base, P_screen_base := P_screen_base, P_screen_exp := P_screen_exp,
    P_cpu_idle := P_cpu_idle, P_cpu_peak := P_cpu_peak, P_network := P_network,
    P_gps := P_gps, P_background := P_background, P_cpu_exp := P_cpu_exp,
    C_th := C_th, h := h, T_env := T_env_init, T := T_env_init, SOC := 1 }

/- The model built with the Python default arguments (lines 28-43). -/
def defaultModel : BatteryModel :=
  BatteryModel.init 3.8 3.85 25 0.02 0.20 0.30 1 0.10 0.90 0.25 0.04 0.05 1 600 5 25

/- BatteryModel.reset (lines 66-72). -/
def BatteryModel.reset (m : BatteryModel) (soc : ℝ) (Topt : Option ℝ) : BatteryModel :=
  let m1 : BatteryModel := { m with SOC := max 0 (min 1 soc) }
  match Topt with
  | some T0 => { m1 with T := T0, T_env := T0 }
  | none => { m1 with T := m1.T_env }

/- BatteryModel.compute_power (lines 74-96), returning both the floored
   total and the per-component breakdown the Python code stores in
   _last_p_components as a side effect. -/
def BatteryModel.compute_power_parts (m : BatteryModel) (usage : Usage) :
    ℝ × PowerBreakdown :=
  let brightness := usage.brightness.getD 0.5
  let cpu_load := usage.cpu_load.getD 0.5
  let network := usage.network.getD true
  let gps := usage.gps.getD true
  let background := usage.background.getD true
  let P_screen := m.P_screen_base * brightness ^ m.P_screen_exp
  let P_CPU := m.P_cpu_idle + (m.P_cpu_peak - m.P_cpu_idle) * cpu_load ^ m.P_cpu_exp
  let P_network := if network then m.P_network else 0
  let P_GPS := if gps then m.P_gps else 0
  let P_background := if background then m.P_background else 0
  let P := m.P_base + P_screen + P_CPU + P_network + P_GPS + P_background
  (max 0 P,
   { P_screen := P_screen, P_CPU := P_CPU, P_network := P_network,
     P_GPS := P_GPS, P_background := P_background })

/- The return value of compute_power (line 96). -/
def BatteryModel.compute_power (m : BatteryModel) (usage : Usage) : ℝ :=
  (m.compute_power_parts usage).1

/- Effective capacity, inlined at battery_model.py lines 114-115:
   Q_eff = Q_Ah * exp(-k_temp * (T - T_ref)), then max with 0.1 * Q_Ah. -/
def BatteryModel.effectiveCapacity (m : BatteryModel) (T0 : ℝ) : ℝ :=
  max (m.Q_Ah * Real.exp (-m.k_temp * (T0 - m.T_ref))) (0.1 * m.Q_Ah)

/- The dict returned by BatteryModel.step (lines 119-130). -/
structure StepResult where
  SOC : ℝ
  T : ℝ
  P : ℝ
  I : ℝ
  Q_eff : ℝ
  P_screen : ℝ
  P_CPU : ℝ
  P_network : ℝ
  P_GPS : ℝ
  P_background : ℝ

/- BatteryModel.step (lines 98-130): returns the updated model state and
   the result snapshot. -/
def BatteryModel.step (m : BatteryModel) (dt_s : ℝ) (usage : Usage)
    (ambient_T : Option ℝ) : BatteryModel × StepResult :=
  let parts := m.compute_power_parts usage
  let P := parts.1
  let comps := parts.2
  let T_env1 := ambient_T.getD m.T_env
  let T1 := m.T + dt_s * (P - m.h * (m.T - T_env1)) / m.C_th
  let Q_eff := m.effectiveCapacity T1
  let I := P / max m.V_nom 1e-6
  let dSOC := -(I * dt_s) / (Q_eff * 3600)
  let SOC1 := max 0 (min 1 (m.SOC + dSOC))
  ({ m with T_env := T_env1, T := T1, SOC := SOC1 },
   { SOC := SOC1, T := T1, P := P, I := I, Q_eff := Q_eff,
     P_screen := comps.P_screen, P_CPU := comps.P_CPU,
     P_network := comps.P_network, P_GPS := comps.P_GPS,
     P_background := comps.P_background })

/- A usage-schedule segment dict with keys start, end, usage, each possibly
   absent (read at line 144 with defaults 0 and +infinity, and at line 145
   with the default usage).  The Python key named end is called stop here
   because end is a Lean keyword; a missing end key, read as float("inf"),
   is modelled as the absence of an upper bound. -/
structure UsageSeg where
  start : Option ℝ := none
  stop : Option ℝ := none
  usage : Option Usage := none

/- The default usage dict returned by _get_usage_at_time
   (lines 136-142, 146-154, 155-161). -/
def defaultUsage : Usage :=
  { brightness := some 0.6, cpu_load := some 0.5, network := some true,
    gps := some true, background := some true }

/- The segment-matching test seg.get("start", 0) <= t < seg.get("end", inf)
   at line 144. -/
def UsageSeg.matchesAt (seg : UsageSeg) (t : ℝ) : Prop :=
  seg.start.getD 0 ≤ t ∧ ∀ e ∈ seg.stop, t < e

/- The first-match scan of the for loop at lines 143-154, falling through
   to the default at lines 155-161. -/
def findUsage (t : ℝ) : List UsageSeg → Usage
  | [] => defaultUsage
  | seg :: rest =>
      if seg.matchesAt t then seg.usage.getD defaultUsage else findUsage t rest

/- BatteryModel._get_usage_at_time (lines 132-161).  A None schedule and an
   empty list are both falsy in Python and yield the default. -/
def BatteryModel.get_usage_at_time (m : BatteryModel) (t : ℝ)
    (schedule : Option (List UsageSeg)) : Usage :=
  match schedule with
  | none => defaultUsage
  | some segs => findUsage t segs

/- An ambient-schedule segment dict (keys start, end, ambient_T, read at
   lines 168-169). -/
structure AmbientSeg where
  start : Option ℝ := none
  stop : Option ℝ := none
  ambient_T : Option ℝ := none

def AmbientSeg.matchesAt (seg : AmbientSeg) (t : ℝ) : Prop :=
  seg.start.getD 0 ≤ t ∧ ∀ e ∈ seg.stop, t < e

/- The ambient schedule argument is either a list of interval segments or a
   single dict holding at most an ambient_T key (lines 166-174). -/
inductive AmbientSchedule where
  | list (segs : List AmbientSeg)
  | dict (ambient_T : Option ℝ)

/- The first-match scan at lines 167-170 with default self.T_env. -/
def findAmbient (tenv t : ℝ) : List AmbientSeg → ℝ
  | [] => tenv
  | seg :: rest =>
      if seg.matchesAt t then seg.ambient_T.getD tenv else findAmbient tenv t rest

/- BatteryModel._get_ambient_at_time (lines 163-174). -/
def BatteryModel.get_ambient_at_time (m : BatteryModel) (t : ℝ)
    (sched : Option AmbientSchedule) : ℝ :=
  match sched with
  | none => m.T_env
  | some (AmbientSchedule.list segs) => findAmbient m.T_env t segs
  | some (AmbientSchedule.dict a) => a.getD m.T_env

/- One row of the trajectory assembled by simulate: the parallel lists of
   lines 183-199 transposed into one record per loop iteration
   (appends at lines 205-223). -/
structure TrajEntry where
  time_s : ℝ
  SOC : ℝ
  temp_C : ℝ
  P_W : ℝ
  I_A : ℝ
  Q_eff_Ah : ℝ
  brightness : ℝ
  cpu_load : ℝ
  network : Bool
  gps : Bool
  background : Bool
  ambient_T : ℝ
  P_screen_W : ℝ
  P_CPU_W : ℝ
  P_network_W : ℝ
  P_GPS_W : ℝ
  P_background_W : ℝ

/- The while loop of simulate (lines 200-224), written with an explicit
   fuel bound since Lean requires termination; with dt_s > 0 any fuel of at
   least ceil((duration_s - t) / dt_s) reproduces the loop exactly. -/
def simLoop (us : Option (List UsageSeg)) (amb : Option AmbientSchedule)
    (duration_s dt_s : ℝ) : ℕ → ℝ → BatteryModel → BatteryModel × List TrajEntry
  | 0, _, m => (m, [])
  | Nat.succ fuel, t, m =>
      if t < duration_s then
        let usage := m.get_usage_at_time t us
        let ambient := m.get_ambient_at_time t amb
        let sr := m.step dt_s usage (some ambient)
        let rest := simLoop us amb duration_s dt_s fuel (t + dt_s) sr.1
        (rest.1,
         ({ time_s := t, SOC := sr.2.SOC, temp_C := sr.2.T, P_W := sr.2.P,
            I_A := sr.2.I, Q_eff_Ah := sr.2.Q_eff,
            brightness := usage.brightness.getD 0.5,
            cpu_load := usage.cpu_load.getD 0.5,
            network := usage.network.getD true,
            gps := usage.gps.getD true,
            background := usage.background.getD true,
            ambient_T := ambient,
            P_screen_W := sr.2.P_screen, P_CPU_W := sr.2.P_CPU,
            P_network_W := sr.2.P_network, P_GPS_W := sr.2.P_GPS,
            P_background_W := sr.2.P_background } : TrajEntry) :: rest.2)
      else (m, [])

/- BatteryModel.simulate (lines 176-245): the loop starts at t = 0; the
   fuel ceil(duration_s / dt_s) + 1 is sufficient whenever dt_s > 0. -/
def BatteryModel.simulate (m : BatteryModel) (duration_s dt_s : ℝ)
    (us : Option (List UsageSeg)) (amb : Option AmbientSchedule) :
    BatteryModel × List TrajEntry :=
  simLoop us amb duration_s dt_s (Nat.ceil (duration_s / dt_s) + 1) 0 m

/- One element of a sequence of step calls. -/
structure StepInput where
  dt_s : ℝ
  usage : Usage
  ambient_T : Option ℝ

/- A finite sequence of step calls applied to the model state. -/
def stepSeq (m : BatteryModel) : List StepInput → BatteryModel
  | [] => m
  | x :: rest => stepSeq (m.step x.dt_s x.usage x.ambient_T).1 rest

end

noncomputable section

/- Helper facts about the embedded operations, shared by the theorems
   below. -/

lemma compute_power_nonneg (m : BatteryModel) (u : Usage) :
    0 ≤ m.compute_power u :=
  le_max_left 0 _

lemma step_fst_SOC_eq (m : BatteryModel) (dt : ℝ) (u : Usage) (a : Option ℝ) :
    (m.step dt u a).1.SOC
      = max 0 (min 1 (m.SOC +
          -(m.compute_power u / max m.V_nom 1e-6 * dt)
            / (m.effectiveCapacity ((m.step dt u a).1.T) * 3600))) :=
  rfl

lemma step_SOC_nonneg (m : BatteryModel) (dt : ℝ) (u : Usage) (a : Option ℝ) :
    0 ≤ (m.step dt u a).1.SOC := by
  rw [step_fst_SOC_eq]
  exact le_max_left 0 _

lemma step_SOC_le_one (m : BatteryModel) (dt : ℝ) (u : Usage) (a : Option ℝ) :
    (m.step dt u a).1.SOC ≤ 1 := by
  rw [step_fst_SOC_eq]
  exact max_le zero_le_one (min_le_left 1 _)

lemma effectiveCapacity_nonneg (m : BatteryModel) (T0 : ℝ) (hQ : 0 ≤ m.Q_Ah) :
    0 ≤ m.effectiveCapacity T0 :=
  le_trans (by linarith) (le_max_right _ (0.1 * m.Q_Ah))

lemma step_SOC_le_self (m : BatteryModel) (dt : ℝ) (u : Usage) (a : Option ℝ)
    (hQ : 0 ≤ m.Q_Ah) (h0 : 0 ≤ m.SOC) (hdt : 0 ≤ dt) :
    (m.step dt u a).1.SOC ≤ m.SOC := by
  rw [step_fst_SOC_eq]
  have hI : 0 ≤ m.compute_power u / max m.V_nom 1e-6 :=
    div_nonneg (compute_power_nonneg m u)
      (le_trans (by norm_num) (le_max_right m.V_nom 1e-6))
  have hQe : 0 ≤ m.effectiveCapacity ((m.step dt u a).1.T) * 3600 :=
    mul_nonneg (effectiveCapacity_nonneg m _ hQ) (by norm_num)
  have hd : -(m.compute_power u / max m.V_nom 1e-6 * dt)
      / (m.effectiveCapacity ((m.step dt u a).1.T) * 3600) ≤ 0 := by
    rw [neg_div]
    exact neg_nonpos.mpr (div_nonneg (mul_nonneg hI hdt) hQe)
  apply max_le h0
  rcases le_total 1 m.SOC with h1 | h1
  · exact le_trans (min_le_left 1 _) h1
  · exact le_trans (min_le_right 1 _) (by linarith)

lemma step_preserves_Q_Ah (m : BatteryModel) (dt : ℝ) (u : Usage) (a : Option ℝ) :
    (m.step dt u a).1.Q_Ah = m.Q_Ah :=
  rfl

lemma step_preserves_V_nom (m : BatteryModel) (dt : ℝ) (u : Usage) (a : Option ℝ) :
    (m.step dt u a).1.V_nom = m.V_nom :=
  rfl

lemma stepSeq_SOC_le (inputs : List StepInput) :
    ∀ m : BatteryModel, 0 ≤ m.Q_Ah → 0 ≤ m.SOC →
      (∀ x ∈ inputs, 0 ≤ x.dt_s) → (stepSeq m inputs).SOC ≤ m.SOC := by
  induction inputs with
  | nil => intro m _ _ _; exact le_refl m.SOC
  | cons x rest ih =>
      intro m hQ h0 hall
      have hstep : (m.step x.dt_s x.usage x.ambient_T).1.SOC ≤ m.SOC :=
        step_SOC_le_self m x.dt_s x.usage x.ambient_T hQ h0
          (hall x (List.mem_cons_self x rest))
      have htail : (stepSeq (m.step x.dt_s x.usage x.ambient_T).1 rest).SOC
          ≤ (m.step x.dt_s x.usage x.ambient_T).1.SOC :=
        ih (m.step x.dt_s x.usage x.ambient_T).1
          (by rw [step_preserves_Q_Ah]; exact hQ)
          (step_SOC_nonneg m x.dt_s x.usage x.ambient_T)
          (fun y hy => hall y (List.mem_cons_of_mem x hy))
      exact le_trans htail hstep

end

/-- C3: for every state of the model and every call to step with any dt,
usage and ambient override, the SOC stored in the updated state lies in
[0, 1], and the SOC reported in the returned StepResult equals the stored
one. -/
theorem step_soc_in_unit_interval :
    ∀ (m : BatteryModel) (dt : ℝ) (u : Usage) (a : Option ℝ),
      0 ≤ (m.step dt u a).1.SOC ∧ (m.step dt u a).1.SOC ≤ 1
        ∧ (m.step dt u a).2.SOC = (m.step dt u a).1.SOC :=
  fun m dt u a => ⟨step_SOC_nonneg m dt u a, step_SOC_le_one m dt u a, rfl⟩

/-- C5: the effective capacity equals max(Q_Ah * exp(-k_temp * (T - T_ref)),
0.1 * Q_Ah); for Q_Ah > 0 it is at least 0.1 * Q_Ah for every temperature;
and step evaluates it at the post-update temperature. -/
theorem effectiveCapacity_floor_spec :
    (∀ (m : BatteryModel) (T0 : ℝ),
        m.effectiveCapacity T0
          = max (m.Q_Ah * Real.exp (-m.k_temp * (T0 - m.T_ref))) (0.1 * m.Q_Ah))
    ∧ (∀ (m : BatteryModel) (T0 : ℝ), 0 < m.Q_Ah →
        0.1 * m.Q_Ah ≤ m.effectiveCapacity T0)
    ∧ (∀ (m : BatteryModel) (dt : ℝ) (u : Usage) (a : Option ℝ),
        (m.step dt u a).2.Q_eff = m.effectiveCapacity ((m.step dt u a).1.T)) :=
  ⟨fun _ _ => rfl, fun m T0 _ => le_max_right _ _, fun _ _ _ _ => rfl⟩

/-- Witness for C5 at the default model and temperature 40. -/
theorem effectiveCapacity_floor_spec_witness :
    0 < defaultModel.Q_Ah
      ∧ 0.1 * defaultModel.Q_Ah ≤ defaultModel.effectiveCapacity 40 := by
  have hQ : 0 < defaultModel.Q_Ah := by norm_num [defaultModel, BatteryModel.init]
  exact ⟨hQ, effectiveCapacity_floor_spec.2.1 defaultModel 40 hQ⟩

/-- C10: reset with an explicit temperature overwrites the ambient
temperature field as well as the body temperature (so a subsequent ambient
lookup with no schedule returns that temperature), while reset without a
temperature leaves the ambient field unchanged and modifies only SOC and
the body temperature. -/
theorem reset_frame_spec :
    (∀ (m : BatteryModel) (soc T0 : ℝ),
        m.reset soc (some T0)
          = { m with SOC := max 0 (min 1 soc), T := T0, T_env := T0 })
    ∧ (∀ (m : BatteryModel) (soc T0 t : ℝ),
        (m.reset soc (some T0)).get_ambient_at_time t none = T0)
    ∧ (∀ (m : BatteryModel) (soc : ℝ),
        m.reset soc none = { m with SOC := max 0 (min 1 soc), T := m.T_env }) :=
  ⟨fun _ _ _ => rfl, fun _ _ _ _ => rfl, fun _ _ => rfl⟩

/-- C8 counterexample: constructing the model with non-positive nominal
capacity, nominal voltage and thermal capacitance succeeds and stores the
values as given; no error of any kind is raised. -/
theorem init_accepts_nonpositive_counterexample :
    (BatteryModel.init (-1) 0 25 0.02 0.20 0.30 1 0.10 0.90 0.25 0.04 0.05 1
        (-600) 5 25).Q_Ah = -1
    ∧ (BatteryModel.init (-1) 0 25 0.02 0.20 0.30 1 0.10 0.90 0.25 0.04 0.05 1
        (-600) 5 25).V_nom = 0
    ∧ (BatteryModel.init (-1) 0 25 0.02 0.20 0.30 1 0.10 0.90 0.25 0.04 0.05 1
        (-600) 5 25).C_th = -600
    ∧ (BatteryModel.init (-1) 0 25 0.02 0.20 0.30 1 0.10 0.90 0.25 0.04 0.05 1
        (-600) 5 25).SOC = 1 :=
  ⟨rfl, rfl, rfl, rfl⟩

/-- C8 amended: construction performs no validation at all; for every
choice of arguments, including non-positive capacity, voltage or thermal
capacitance, it stores every parameter as given and initializes SOC to 1
and both temperature fields to the initial ambient temperature. -/
theorem init_stores_fields :
    ∀ (qa vn tr kt pb psb pse pci pcp pn pg pbg pce cth hc te : ℝ),
      BatteryModel.init qa vn tr kt pb psb pse pci pcp pn pg pbg pce cth hc te
        = { Q_Ah := qa, V_nom := vn, T_ref := tr, k_temp := kt, P_base := pb,
            P_screen_base := psb, P_screen_exp := pse, P_cpu_idle := pci,
            P_cpu_peak := pcp, P_network := pn, P_gps := pg,
            P_background := pbg, P_cpu_exp := pce, C_th := cth, h := hc,
            T_env := te, T := te, SOC := 1 } :=
  fun _ _ _ _ _ _ _ _ _ _ _ _ _ _ _ _ => rfl

/-- C1: one step applies, in order: ambient override into the stored
ambient; explicit-Euler temperature update from the pre-step temperature;
effective capacity at the post-update temperature; current as power over
the epsilon-floored nominal voltage; and the clamped Coulomb-counting SOC
update. -/
theorem step_follows_update_sequence (m : BatteryModel) (dt : ℝ) (u : Usage)
    (a : Option ℝ) (hQ : 0 < m.Q_Ah) (hV : 0 < m.V_nom) (hC : 0 < m.C_th)
    (hdt : 0 < dt) :
    (m.step dt u a).1.T_env = a.getD m.T_env
    ∧ (m.step dt u a).1.T
        = m.T + dt * (m.compute_power u - m.h * (m.T - a.getD m.T_env)) / m.C_th
    ∧ (m.step dt u a).2.Q_eff = m.effectiveCapacity ((m.step dt u a).1.T)
    ∧ (m.step dt u a).2.I = m.compute_power u / max m.V_nom 1e-6
    ∧ (m.step dt u a).1.SOC
        = max 0 (min 1 (m.SOC
            + -((m.step dt u a).2.I * dt) / ((m.step dt u a).2.Q_eff * 3600)))
    ∧ (m.step dt u a).2.SOC = (m.step dt u a).1.SOC
    ∧ (m.step dt u a).2.T = (m.step dt u a).1.T
    ∧ (m.step dt u a).2.P = m.compute_power u :=
  ⟨rfl, rfl, rfl, rfl, rfl, rfl, rfl, rfl⟩

/-- Witness for C1 at the default model, dt = 60 and ambient override 30. -/
theorem step_follows_update_sequence_witness :
    0 < defaultModel.Q_Ah ∧ 0 < defaultModel.V_nom ∧ 0 < defaultModel.C_th
      ∧ (defaultModel.step 60 defaultUsage (some 30)).1.T_env
          = (some (30 : ℝ)).getD defaultModel.T_env := by
  have h1 : 0 < defaultModel.Q_Ah := by norm_num [defaultModel, BatteryModel.init]
  have h2 : 0 < defaultModel.V_nom := by norm_num [defaultModel, BatteryModel.init]
  have h3 : 0 < defaultModel.C_th := by norm_num [defaultModel, BatteryModel.init]
  exact ⟨h1, h2, h3,
    (step_follows_update_sequence defaultModel 60 defaultUsage (some 30) h1 h2 h3
      (by norm_num)).1⟩

/-- C4: with non-negative time steps, non-negative starting SOC, and
positive nominal capacity and voltage, SOC never increases: in one step and
across any finite sequence of steps. -/
theorem soc_nonincreasing :
    (∀ (m : BatteryModel) (dt : ℝ) (u : Usage) (a : Option ℝ),
        0 < m.Q_Ah → 0 < m.V_nom → 0 ≤ m.SOC → 0 ≤ dt →
        (m.step dt u a).1.SOC ≤ m.SOC)
    ∧ (∀ (m : BatteryModel) (inputs : List StepInput),
        0 < m.Q_Ah → 0 < m.V_nom → 0 ≤ m.SOC →
        (∀ x ∈ inputs, 0 ≤ x.dt_s) → (stepSeq m inputs).SOC ≤ m.SOC) :=
  ⟨fun m dt u a hQ _ h0 hdt => step_SOC_le_self m dt u a hQ.le h0 hdt,
   fun m inputs hQ _ h0 hall => stepSeq_SOC_le inputs m hQ.le h0 hall⟩

/-- Witness for C4: one 60-second step sequence on the default model. -/
theorem soc_nonincreasing_witness :
    0 < defaultModel.Q_Ah ∧ 0 < defaultModel.V_nom ∧ 0 ≤ defaultModel.SOC
      ∧ (stepSeq defaultModel [⟨60, defaultUsage, some 30⟩]).SOC
          ≤ defaultModel.SOC := by
  have h1 : 0 < defaultModel.Q_Ah := by norm_num [defaultModel, BatteryModel.init]
  have h2 : 0 < defaultModel.V_nom := by norm_num [defaultModel, BatteryModel.init]
  have h3 : 0 ≤ defaultModel.SOC := by norm_num [defaultModel, BatteryModel.init]
  refine ⟨h1, h2, h3, soc_nonincreasing.2 defaultModel [⟨60, defaultUsage, some 30⟩]
    h1 h2 h3 ?_⟩
  intro x hx
  rw [List.mem_singleton] at hx
  rw [hx]
  norm_num

noncomputable section

/- The concrete power evaluation at brightness 0.9, cpu load 0.8 and all
   flags on, with the default coefficients: the total is 1.55 W. -/
lemma compute_power_default_bright :
    defaultModel.compute_power
      { brightness := some 0.9, cpu_load := some 0.8, network := some true,
        gps := some true, background := some true } = 1.55 := by
  have h : defaultModel.compute_power
      { brightness := some 0.9, cpu_load := some 0.8, network := some true,
        gps := some true, background := some true }
      = max 0 ((0.20 : ℝ) + 0.30 * (0.9 : ℝ) ^ ((1 : ℝ))
          + ((0.10 : ℝ) + ((0.90 : ℝ) - 0.10) * (0.8 : ℝ) ^ ((1 : ℝ)))
          + 0.25 + 0.04 + 0.05) := rfl
  rw [h, Real.rpow_one, Real.rpow_one,
    show (0.20 : ℝ) + 0.30 * 0.9 + (0.10 + (0.90 - 0.10) * 0.8) + 0.25 + 0.04
        + 0.05 = 1.55 by norm_num]
  exact max_eq_right (by norm_num)

end

/-- C2 counterexample: with the default coefficients and exponents 1, the
usage {brightness 0.9, cpu load 0.8, all flags on} yields total power
1.55 W, not 1.676 W as the claim computes. -/
theorem compute_power_value_counterexample :
    defaultModel.compute_power
      { brightness := some 0.9, cpu_load := some 0.8, network := some true,
        gps := some true, background := some true } = 1.55
    ∧ defaultModel.compute_power
      { brightness := some 0.9, cpu_load := some 0.8, network := some true,
        gps := some true, background := some true } ≠ 1.676 := by
  refine ⟨compute_power_default_bright, ?_⟩
  rw [compute_power_default_bright]
  norm_num

/-- C2 amended: compute_power returns base + screen + cpu + network + gps +
background floored at 0, with screen = screenBase * brightness^screenExp,
cpu = cpuIdle + (cpuPeak - cpuIdle) * cpuLoad^cpuExp, and each flag term
equal to its coefficient when the flag is set and 0 otherwise; with the
default coefficients and exponents 1, usage {brightness 0.9, cpu_load 0.8,
all flags on} yields total power 1.55 W. -/
theorem compute_power_formula :
    (∀ (m : BatteryModel) (u : Usage),
        m.compute_power u
          = max 0 (m.P_base
              + m.P_screen_base * (u.brightness.getD 0.5) ^ m.P_screen_exp
              + (m.P_cpu_idle
                  + (m.P_cpu_peak - m.P_cpu_idle) * (u.cpu_load.getD 0.5) ^ m.P_cpu_exp)
              + (if u.network.getD true then m.P_network else 0)
              + (if u.gps.getD true then m.P_gps else 0)
              + (if u.background.getD true then m.P_background else 0)))
    ∧ defaultModel.compute_power
      { brightness := some 0.9, cpu_load := some 0.8, network := some true,
        gps := some true, background := some true } = 1.55 :=
  ⟨fun _ _ => rfl, compute_power_default_bright⟩

noncomputable section

/- Schedule lookup helper lemmas. -/

lemma findUsage_no_match (t : ℝ) :
    ∀ segs : List UsageSeg, (∀ s ∈ segs, ¬ s.matchesAt t) →
      findUsage t segs = defaultUsage := by
  intro segs
  induction segs with
  | nil => intro _; rfl
  | cons seg rest ih =>
      intro hno
      rw [show findUsage t (seg :: rest)
          = if seg.matchesAt t then seg.usage.getD defaultUsage
            else findUsage t rest from rfl,
        if_neg (hno seg (List.mem_cons_self seg rest))]
      exact ih (fun s hs => hno s (List.mem_cons_of_mem seg hs))

lemma findUsage_first_match (t : ℝ) (seg : UsageSeg) (post : List UsageSeg) :
    ∀ pre : List UsageSeg, (∀ s ∈ pre, ¬ s.matchesAt t) → seg.matchesAt t →
      findUsage t (pre ++ seg :: post) = seg.usage.getD defaultUsage := by
  intro pre
  induction pre with
  | nil =>
      intro _ hm
      rw [List.nil_append,
        show findUsage t (seg :: post)
            = if seg.matchesAt t then seg.usage.getD defaultUsage
              else findUsage t post from rfl,
        if_pos hm]
  | cons s0 pre ih =>
      intro hno hm
      rw [List.cons_append,
        show findUsage t (s0 :: (pre ++ seg :: post))
            = if s0.matchesAt t then s0.usage.getD defaultUsage
              else findUsage t (pre ++ seg :: post) from rfl,
        if_neg (hno s0 (List.mem_cons_self s0 pre))]
      exact ih (fun s hs => hno s (List.mem_cons_of_mem s0 hs)) hm

lemma findAmbient_no_match (tenv t : ℝ) :
    ∀ segs : List AmbientSeg, (∀ s ∈ segs, ¬ s.matchesAt t) →
      findAmbient tenv t segs = tenv := by
  intro segs
  induction segs with
  | nil => intro _; rfl
  | cons seg rest ih =>
      intro hno
      rw [show findAmbient tenv t (seg :: rest)
          = if seg.matchesAt t then seg.ambient_T.getD tenv
            else findAmbient tenv t rest from rfl,
        if_neg (hno seg (List.mem_cons_self seg rest))]
      exact ih (fun s hs => hno s (List.mem_cons_of_mem seg hs))

lemma findAmbient_first_match (tenv t : ℝ) (seg : AmbientSeg)
    (post : List AmbientSeg) :
    ∀ pre : List AmbientSeg, (∀ s ∈ pre, ¬ s.matchesAt t) → seg.matchesAt t →
      findAmbient tenv t (pre ++ seg :: post) = seg.ambient_T.getD tenv := by
  intro pre
  induction pre with
  | nil =>
      intro _ hm
      rw [List.nil_append,
        show findAmbient tenv t (seg :: post)
            = if seg.matchesAt t then seg.ambient_T.getD tenv
              else findAmbient tenv t post from rfl,
        if_pos hm]
  | cons s0 pre ih =>
      intro hno hm
      rw [List.cons_append,
        show findAmbient tenv t (s0 :: (pre ++ seg :: post))
            = if s0.matchesAt t then s0.ambient_T.getD tenv
              else findAmbient tenv t (pre ++ seg :: post) from rfl,
        if_neg (hno s0 (List.mem_cons_self s0 pre))]
      exact ih (fun s hs => hno s (List.mem_cons_of_mem s0 hs)) hm

end

/-- C6: usage lookup returns the first segment whose half-open interval
contains the query time (its payload, with the documented default filled in
when the segment carries none), and the documented default usage when the
schedule is absent, empty, or no segment matches; ambient lookup likewise
returns the first matching segment's ambient value, the stored ambient
temperature when the schedule is absent or nothing matches, and a single
non-interval override value uniformly for every query time. -/
theorem schedule_lookup_spec :
    (∀ (m : BatteryModel) (t : ℝ), m.get_usage_at_time t none = defaultUsage)
    ∧ (∀ (m : BatteryModel) (t : ℝ),
        m.get_usage_at_time t (some []) = defaultUsage)
    ∧ (∀ (m : BatteryModel) (t : ℝ) (segs : List UsageSeg),
        (∀ s ∈ segs, ¬ s.matchesAt t) →
        m.get_usage_at_time t (some segs) = defaultUsage)
    ∧ (∀ (m : BatteryModel) (t : ℝ) (pre post : List UsageSeg) (seg : UsageSeg),
        (∀ s ∈ pre, ¬ s.matchesAt t) → seg.matchesAt t →
        m.get_usage_at_time t (some (pre ++ seg :: post))
          = seg.usage.getD defaultUsage)
    ∧ (∀ (m : BatteryModel) (t : ℝ), m.get_ambient_at_time t none = m.T_env)
    ∧ (∀ (m : BatteryModel) (t : ℝ) (segs : List AmbientSeg),
        (∀ s ∈ segs, ¬ s.matchesAt t) →
        m.get_ambient_at_time t (some (AmbientSchedule.list segs)) = m.T_env)
    ∧ (∀ (m : BatteryModel) (t : ℝ) (pre post : List AmbientSeg)
          (seg : AmbientSeg),
        (∀ s ∈ pre, ¬ s.matchesAt t) → seg.matchesAt t →
        m.get_ambient_at_time t (some (AmbientSchedule.list (pre ++ seg :: post)))
          = seg.ambient_T.getD m.T_env)
    ∧ (∀ (m : BatteryModel) (t v : ℝ),
        m.get_ambient_at_time t (some (AmbientSchedule.dict (some v))) = v)
    ∧ (∀ (m : BatteryModel) (t : ℝ),
        m.get_ambient_at_time t (some (AmbientSchedule.dict none)) = m.T_env) :=
  ⟨fun _ _ => rfl,
   fun _ _ => rfl,
   fun _ t segs hno => findUsage_no_match t segs hno,
   fun _ t pre post seg hno hm => findUsage_first_match t seg post pre hno hm,
   fun _ _ => rfl,
   fun m t segs hno => findAmbient_no_match m.T_env t segs hno,
   fun m t pre post seg hno hm => findAmbient_first_match m.T_env t seg post pre hno hm,
   fun _ _ _ => rfl,
   fun _ _ => rfl⟩

/-- Witness for C6: a one-segment schedule over [0, 10) queried at t = 5,
and a no-match query at t = 50. -/
theorem schedule_lookup_spec_witness :
    defaultModel.get_usage_at_time 5
        (some [{ start := some 0, stop := some 10, usage := some defaultUsage }])
      = (some defaultUsage).getD defaultUsage
    ∧ defaultModel.get_usage_at_time 50
        (some [{ start := some 0, stop := some 10, usage := some defaultUsage }])
      = defaultUsage := by
  constructor
  · exact schedule_lookup_spec.2.2.2.1 defaultModel 5 [] []
      { start := some 0, stop := some 10, usage := some defaultUsage }
      (by intro s hs; exact absurd hs (List.not_mem_nil s))
      (by constructor
          · norm_num
          · intro e he
            rw [Option.mem_def, Option.some.injEq] at he
            rw [← he]
            norm_num)
  · exact schedule_lookup_spec.2.2.1 defaultModel 50 _ (by
      intro s hs
      rw [List.mem_singleton] at hs
      rw [hs]
      intro hmatch
      rcases hmatch with ⟨_, hstop⟩
      have := hstop 10 rfl
      norm_num at this)

noncomputable section

/- With a non-positive time step and a positive duration, every iteration
   of the simulate loop keeps the loop guard true: the loop only stops when
   the fuel bound is exhausted (the Python loop never exits). -/
lemma simLoop_stuck (us : Option (List UsageSeg)) (amb : Option AmbientSchedule)
    (dur dt : ℝ) (hdur : 0 < dur) (hdt : dt ≤ 0) :
    ∀ (fuel : ℕ) (t : ℝ), t ≤ 0 → ∀ m : BatteryModel,
      (simLoop us amb dur dt fuel t m).2.length = fuel := by
  intro fuel
  induction fuel with
  | zero => intro t _ m; rfl
  | succ fuel ih =>
      intro t ht m
      have htd : t < dur := lt_of_le_of_lt ht hdur
      simp only [simLoop, htd, if_true, List.length_cons]
      rw [ih (t + dt) (add_nonpos ht hdt) _]

end

/-- C9 counterexample: step called with the non-positive time step dt = 0
silently returns a result (SOC unchanged at 1) instead of failing, and the
simulate loop with dt = 0 and duration 1 is still running after 5
iterations with the guard still true (it exits only by fuel exhaustion in
the embedding; the Python loop never exits). -/
theorem dt_nonpositive_counterexample :
    (defaultModel.step 0 {} none).1.SOC = 1
    ∧ (simLoop none none 1 0 5 0 defaultModel).2.length = 5 := by
  constructor
  · rw [step_fst_SOC_eq defaultModel 0 {} none, mul_zero, neg_zero, zero_div,
      add_zero, show defaultModel.SOC = 1 from rfl, min_self]
    exact max_eq_right zero_le_one
  · exact simLoop_stuck none none 1 0 (by norm_num) (le_refl 0) 5 0 (le_refl 0)
      defaultModel

/-- C9 amended: neither step nor simulate validates the time step; step
with dt ≤ 0 executes normally and returns a result snapshot, and the
simulate loop with dt ≤ 0, positive duration and non-positive start time
never makes its guard false, so it consumes any fuel bound entirely (the
Python while loop does not terminate). -/
theorem no_dt_validation :
    (∀ (m : BatteryModel) (u : Usage) (a : Option ℝ) (dt : ℝ), dt ≤ 0 →
        (m.step dt u a).2.P = m.compute_power u
          ∧ (m.step dt u a).2.SOC = (m.step dt u a).1.SOC)
    ∧ (∀ (us : Option (List UsageSeg)) (amb : Option AmbientSchedule)
          (dur dt t : ℝ) (fuel : ℕ) (m : BatteryModel),
        0 < dur → dt ≤ 0 → t ≤ 0 →
        (simLoop us amb dur dt fuel t m).2.length = fuel) :=
  ⟨fun _ _ _ _ _ => ⟨rfl, rfl⟩,
   fun us amb dur dt t fuel m hdur hdt ht =>
     simLoop_stuck us amb dur dt hdur hdt fuel t ht m⟩

/-- Witness for C9's amended statement at dt = -1 and a 7-iteration fuel
bound. -/
theorem no_dt_validation_witness :
    (defaultModel.step (-1) {} none).2.P = defaultModel.compute_power {}
    ∧ (simLoop none none 1 0 7 0 defaultModel).2.length = 7 :=
  ⟨(no_dt_validation.1 defaultModel {} none (-1) (by norm_num)).1,
   no_dt_validation.2 none none 1 0 0 7 defaultModel (by norm_num) (le_refl 0)
     (le_refl 0)⟩

noncomputable section

/- Iteration count of the simulate loop: with dt > 0 and enough fuel the
   loop runs ceil((duration - t) / dt) times from start time t. -/

lemma ceil_succ_of_pos {y : ℝ} (hy : 0 < y) :
    Nat.ceil y = Nat.ceil (y - 1) + 1 := by
  apply le_antisymm
  · rw [Nat.ceil_le]
    push_cast
    have := Nat.le_ceil (y - 1)
    linarith
  · rw [Nat.add_one_le_ceil_iff]
    rcases le_or_lt y 1 with h1 | h1
    · rw [Nat.ceil_eq_zero.mpr (by linarith : y - 1 ≤ 0)]
      exact_mod_cast hy
    · have h0 : (0 : ℝ) ≤ y - 1 := by linarith
      have := Nat.ceil_lt_add_one h0
      push_cast at this ⊢
      linarith

lemma range_affine_cons (t dt : ℝ) (n : ℕ) :
    (List.range (n + 1)).map (fun k : ℕ => t + k * dt)
      = t :: (List.range n).map fun k : ℕ => (t + dt) + k * dt := by
  rw [List.range_succ_eq_map, List.map_cons, List.map_map]
  simp only [Nat.cast_zero, zero_mul, add_zero, Function.comp]
  refine congrArg (List.cons t) (List.map_congr_left ?_)
  intro k _
  simp only [Function.comp_apply]
  push_cast
  ring

lemma simLoop_times (us : Option (List UsageSeg)) (amb : Option AmbientSchedule)
    (dur dt : ℝ) (hdt : 0 < dt) :
    ∀ (fuel : ℕ) (t : ℝ) (m : BatteryModel),
      Nat.ceil ((dur - t) / dt) ≤ fuel →
      (simLoop us amb dur dt fuel t m).2.map TrajEntry.time_s
        = (List.range (Nat.ceil ((dur - t) / dt))).map fun k : ℕ => t + k * dt := by
  intro fuel
  induction fuel with
  | zero =>
      intro t m hf
      rw [Nat.le_zero.mp hf]
      rfl
  | succ fuel ih =>
      intro t m hf
      by_cases ht : t < dur
      · have hy : 0 < (dur - t) / dt := div_pos (by linarith) hdt
        have hrec : (dur - (t + dt)) / dt = (dur - t) / dt - 1 := by
          field_simp
          ring
        have hN : Nat.ceil ((dur - t) / dt)
            = Nat.ceil ((dur - (t + dt)) / dt) + 1 := by
          rw [hrec]
          exact ceil_succ_of_pos hy
        have hf' : Nat.ceil ((dur - (t + dt)) / dt) ≤ fuel := by omega
        have hmap := ih (t + dt)
          ((BatteryModel.step m dt (m.get_usage_at_time t us)
            (some (m.get_ambient_at_time t amb))).1) hf'
        simp only [simLoop, ht, if_true, List.map_cons]
        rw [hmap, hN, range_affine_cons]
      · have h0 : Nat.ceil ((dur - t) / dt) = 0 :=
          Nat.ceil_eq_zero.mpr
            (div_nonpos_of_nonpos_of_nonneg (by linarith) hdt.le)
        simp only [simLoop, ht, if_false, h0, List.range_zero, List.map_nil]

lemma simulate_times (m : BatteryModel) (us : Option (List UsageSeg))
    (amb : Option AmbientSchedule) (dur dt : ℝ) (hdt : 0 < dt) :
    (m.simulate dur dt us amb).2.map TrajEntry.time_s
      = (List.range (Nat.ceil (dur / dt))).map fun k : ℕ => (k : ℝ) * dt := by
  have h := simLoop_times us amb dur dt hdt (Nat.ceil (dur / dt) + 1) 0 m
    (by rw [sub_zero]; exact Nat.le_succ _)
  rw [sub_zero] at h
  rw [show m.simulate dur dt us amb
      = simLoop us amb dur dt (Nat.ceil (dur / dt) + 1) 0 m from rfl, h]
  exact List.map_congr_left (fun k _ => by rw [zero_add])

lemma simulate_entry_lt (m : BatteryModel) (us : Option (List UsageSeg))
    (amb : Option AmbientSchedule) (dur dt : ℝ) (hdt : 0 < dt) :
    ∀ e ∈ (m.simulate dur dt us amb).2, e.time_s < dur := by
  intro e he
  have hmem : e.time_s ∈ (m.simulate dur dt us amb).2.map TrajEntry.time_s :=
    List.mem_map_of_mem TrajEntry.time_s he
  rw [simulate_times m us amb dur dt hdt] at hmem
  rcases List.mem_map.mp hmem with ⟨k, hk, hek⟩
  rw [← hek]
  exact (lt_div_iff₀ hdt).mp (Nat.lt_ceil.mp (List.mem_range.mp hk))

lemma ceil_7200_div_60 : Nat.ceil ((7200 : ℝ) / 60) = 120 := by
  rw [show (7200 : ℝ) / 60 = ((120 : ℕ) : ℝ) by norm_num]
  exact Nat.ceil_natCast 120

end

/-- C7: with positive duration and time step, the trajectory holds one
entry per loop iteration, at times 0, dt, 2*dt, ..., all strictly below
the duration (ceil(duration/dt) entries in total); in particular
simulate(7200, 60, ...) yields exactly 120 entries whose strictly
increasing times are 0, 60, ..., 7140. -/
theorem simulate_trajectory_spec :
    (∀ (m : BatteryModel) (us : Option (List UsageSeg))
        (amb : Option AmbientSchedule) (dur dt : ℝ), 0 < dur → 0 < dt →
        (m.simulate dur dt us amb).2.map TrajEntry.time_s
            = (List.range (Nat.ceil (dur / dt))).map (fun k : ℕ => (k : ℝ) * dt)
          ∧ ∀ e ∈ (m.simulate dur dt us amb).2, e.time_s < dur)
    ∧ (∀ (m : BatteryModel) (us : Option (List UsageSeg))
        (amb : Option AmbientSchedule),
        (m.simulate 7200 60 us amb).2.length = 120
          ∧ (m.simulate 7200 60 us amb).2.map TrajEntry.time_s
              = (List.range 120).map (fun k : ℕ => (k : ℝ) * 60)
          ∧ ((m.simulate 7200 60 us amb).2.map TrajEntry.time_s).Pairwise (· < ·)) := by
  constructor
  · intro m us amb dur dt _ hdt
    exact ⟨simulate_times m us amb dur dt hdt, simulate_entry_lt m us amb dur dt hdt⟩
  · intro m us amb
    have hmap : (m.simulate 7200 60 us amb).2.map TrajEntry.time_s
        = (List.range 120).map fun k : ℕ => (k : ℝ) * 60 := by
      rw [simulate_times m us amb 7200 60 (by norm_num), ceil_7200_div_60]
    refine ⟨?_, hmap, ?_⟩
    · have hlen := congrArg List.length hmap
      rwa [List.length_map, List.length_map, List.length_range] at hlen
    · rw [hmap, List.pairwise_map]
      exact (List.pairwise_lt_range 120).imp
        (fun hab => mul_lt_mul_of_pos_right (Nat.cast_lt.mpr hab) (by norm_num))

/-- Witness for C7 at the default model with no schedules, duration 7200
and dt 60. -/
theorem simulate_trajectory_spec_witness :
    (defaultModel.simulate 7200 60 none none).2.map TrajEntry.time_s
        = (List.range (Nat.ceil ((7200 : ℝ) / 60))).map (fun k : ℕ => (k : ℝ) * 60)
      ∧ ∀ e ∈ (defaultModel.simulate 7200 60 none none).2, e.time_s < 7200 :=
  simulate_trajectory_spec.1 defaultModel none none 7200 60 (by norm_num)
    (by norm_num)
